import Mathlib

/-!
Verification of the process-supervisor core of `mcp_server_manager.py`
(kingler/figma-mcp).

The registry file `running_processes.json` maps a server name to a record
`{pid, started_at}`.  We embed the file's parse state as `RegFile`
(missing / malformed JSON / a parsed table), the table as an association
list, and each supervisor operation (`start_server`, `stop_server`,
`list_servers`, `list_running`, `clean_stale`, `save_process_info`,
`remove_process_info`) as a Lean function over that state.

Process liveness is an oracle.  For `stop_server` the oracle
`aliveAt : Nat → Bool` gives the liveness of the recorded pid at each
`os.kill` call the function makes, in order: index 0 is the initial
SIGTERM, indices 1..5 are the five `os.kill(pid, 0)` polls, index 6 the
SIGKILL.  For `clean_stale` / `list_*` the oracle `live : Nat → Bool`
maps a pid to its liveness during the (single) scan.
-/

/-- One registry record: `{"pid": ..., "started_at": ...}`. -/
structure ProcInfo where
  pid : Nat
  started_at : String
deriving Repr, DecidableEq

/-- The parsed registry table (a JSON object, i.e. a map with unique keys). -/
abbrev Table := List (String × ProcInfo)

namespace Table

/-- `processes[name]` lookup (`name in processes` / `processes.get`). -/
def lookup (t : Table) (n : String) : Option ProcInfo :=
  match t with
  | [] => none
  | (k, v) :: rest => if k = n then some v else lookup rest n

/-- `del processes[name]` — drop the entry with key `n` (no-op if absent). -/
def erase (t : Table) (n : String) : Table :=
  t.filter (fun p => !(p.1 = n : Bool))

/-- `processes[name] = v` — Python dict update: replace in place if the key
exists, otherwise append. -/
def insert (t : Table) (n : String) (v : ProcInfo) : Table :=
  match t with
  | [] => [(n, v)]
  | (k, w) :: rest => if k = n then (n, v) :: rest else (k, w) :: insert rest n v

end Table

/-- The on-disk state of `running_processes.json` as the supervisor's
reads observe it. -/
inductive RegFile
  | missing
  | malformed
  | good (t : Table)
deriving Repr, DecidableEq

/-- The table a reader that tolerates missing/corrupt files obtains. -/
def tableOf : RegFile → Table
  | .missing => []
  | .malformed => []
  | .good t => t

/-- `save_process_info(server_name, pid)`: read the file (missing or
unparseable ⇒ `{}`), set `processes[server_name] = {pid, started_at}`,
write back. -/
def save_process_info (file : RegFile) (name : String) (pid : Nat)
    (now : String) : RegFile :=
  RegFile.good (Table.insert (tableOf file) name ⟨pid, now⟩)

/-- `remove_process_info(server_name)`: if the file is absent, return
without writing; if it parses, delete the entry (if present) and write
back; if parsing fails, write back the empty table `{}`. -/
def remove_process_info (file : RegFile) (name : String) : RegFile :=
  match file with
  | .missing => .missing
  | .malformed => .good []
  | .good t => .good (Table.erase t name)

/-! ## stop_server -/

/-- Result of a `stop_server` call: the boolean return value, the
resulting file state, whether the initial SIGTERM reached a live process,
the index (1-based, among the five polls) at which death was first
observed (if it was), and whether SIGKILL was sent. -/
structure StopOutcome where
  success : Bool
  file : RegFile
  termDelivered : Bool
  observedDeadAt : Option Nat
  sigkillSent : Bool
deriving Repr, DecidableEq

/-- The `for _ in range(5)` wait loop of `stop_server`: starting at kill
index `k`, with `fuel` polls remaining, return the index of the first
poll that finds the process dead (`os.kill(pid, 0)` raising `OSError`),
or `none` if the process is alive at every remaining poll. -/
def stopLoop (aliveAt : Nat → Bool) (k : Nat) : Nat → Option Nat
  | 0 => none
  | fuel + 1 => if aliveAt k then stopLoop aliveAt (k + 1) fuel else some k

/-- `stop_server(server_name)`.  `aliveAt i` is the liveness of the
recorded pid at the i-th kill syscall (0 = SIGTERM, 1..5 = polls,
6 = SIGKILL; SIGKILL's own outcome is irrelevant since either way the
code removes the entry and returns `True`). -/
def stop_server (file : RegFile) (name : String) (aliveAt : Nat → Bool) :
    StopOutcome :=
  match file with
  | .missing => ⟨false, .missing, false, none, false⟩
  | .malformed => ⟨false, .malformed, false, none, false⟩
  | .good processes =>
    match Table.lookup processes name with
    | none => ⟨false, .good processes, false, none, false⟩
    | some _ =>
      if aliveAt 0 then
        match stopLoop aliveAt 1 5 with
        | some k =>
          ⟨true, remove_process_info (.good processes) name, true, some k, false⟩
        | none =>
          ⟨true, remove_process_info (.good processes) name, true, none, true⟩
      else
        -- os.kill(pid, SIGTERM) raised ProcessLookupError
        ⟨true, remove_process_info (.good processes) name, false, none, false⟩

/-! ## clean_stale -/

/-- The stale list `clean_stale` accumulates: names of entries whose pid
fails the `os.kill(pid, 0)` check. -/
def staleNames (t : Table) (live : Nat → Bool) : List String :=
  (t.filter (fun p => !(live p.2.pid))).map Prod.fst

/-- `clean_stale()`: read the registry (missing / unparseable / empty ⇒
report and return without removing anything); collect the stale names;
if none, return; otherwise call `remove_process_info` on each stale name
in order.  Returns the final file state and the list of removed names. -/
def clean_stale (file : RegFile) (live : Nat → Bool) : RegFile × List String :=
  match file with
  | .missing => (.missing, [])
  | .malformed => (.malformed, [])
  | .good processes =>
    if processes = [] then (.good processes, [])
    else
      let stale := staleNames processes live
      if stale = [] then (.good processes, [])
      else (stale.foldl (fun f s => remove_process_info f s) (.good processes), stale)

/-! ## list_servers and list_running -/

/-- Insert into a list sorted by `le`. -/
def insertSorted (le : α → α → Bool) (a : α) : List α → List α
  | [] => [a]
  | b :: t => if le a b then a :: b :: t else b :: insertSorted le a t

/-- Insertion sort, embedding Python's `sorted`. -/
def sortBy (le : α → α → Bool) : List α → List α
  | [] => []
  | a :: t => insertSorted le a (sortBy le t)

/-- Python's `needle in hay` substring test. -/
def containsSub (needle hay : String) : Bool :=
  decide (needle.toList <:+: hay.toList)

/-- The server-directory filter of `list_servers`:
`os.path.isdir(...) and ("server" in d.lower() or "mcp" in d.lower())`. -/
def isServerDirName (isDir : String → Bool) (d : String) : Bool :=
  isDir d && (containsSub "server" d.toLower || containsSub "mcp" d.toLower)

/-- The per-server lines `list_servers` prints for one candidate
directory name. -/
def listServersLines (running : Table) (live : Nat → Bool) (server : String) :
    List String :=
  match Table.lookup running server with
  | none => [s!"- {server} [stopped]"]
  | some info =>
    let pid := info.pid
    let started := info.started_at
    if live pid then
      [s!"- {server} [running]", s!"  PID: {pid}, Started at: {started}"]
    else
      [s!"- {server} [running]",
       s!"  WARNING: Process with PID {pid} is not running, but is marked as running"]

/-- `list_servers()`: enumerate `MCP_DIR`, keep the directories whose
name matches the server naming convention, load the registry (missing or
unparseable ⇒ `{}`), and print each candidate (sorted) with its status.
Reads only; returns the printed lines and the (unchanged) file state. -/
def list_servers (allDirs : List String) (isDir : String → Bool)
    (file : RegFile) (live : Nat → Bool) : List String × RegFile :=
  let servers := allDirs.filter (isServerDirName isDir)
  let running := tableOf file
  let count := servers.length
  let header := s!"Found {count} MCP servers:"
  let body :=
    (sortBy (fun a b => decide (a ≤ b)) servers).flatMap
      (listServersLines running live)
  (header :: body, file)

/-- The per-entry lines `list_running` prints. -/
def listRunningLines (live : Nat → Bool) (p : String × ProcInfo) :
    List String :=
  let server := p.1
  let pid := p.2.pid
  let started := p.2.started_at
  if live pid then
    [s!"- {server}", s!"  PID: {pid}, Started at: {started}"]
  else
    [s!"- {server} (STALE)", s!"  PID: {pid}, Started at: {started}",
     "  WARNING: Process is no longer running"]

/-- `list_running()`: missing file ⇒ "No running servers found";
unparseable file ⇒ "Error reading process records file"; empty table ⇒
"No running servers found"; otherwise dump the (sorted) table, labelling
dead entries STALE without removing them.  Returns the printed lines and
the (unchanged) file state. -/
def list_running (file : RegFile) (live : Nat → Bool) :
    List String × RegFile :=
  match file with
  | .missing => (["No running servers found"], .missing)
  | .malformed => (["Error reading process records file"], .malformed)
  | .good processes =>
    if processes = [] then (["No running servers found"], .good processes)
    else
      let count := processes.length
      let header := s!"Running MCP servers ({count}):"
      let body :=
        (sortBy (fun a b => decide (a.1 ≤ b.1)) processes).flatMap
          (listRunningLines live)
      (header :: body, .good processes)

/-! ## start_server -/

/-- The marker files and entry points of one server directory, as
`start_server` probes them with `os.path.exists`. -/
structure ServerDir where
  pathExists : Bool
  packageJson : Bool
  requirementsTxt : Bool
  buildIndexJs : Bool
  distIndexJs : Bool
  appPy : Bool
  mainPy : Bool
  serverPy : Bool
deriving Repr, DecidableEq

/-- The command `start_server` launches. -/
inductive LaunchCmd
  | nodeBuild
  | nodeDist
  | npmStart
  | pythonEntry (ep : String)
deriving Repr, DecidableEq

/-- The fixed ordered list of conventional Python entry points. -/
def python_entry_points : List String := ["app.py", "main.py", "server.py"]

/-- `os.path.exists(os.path.join(server_path, ep))` for the Python entry
points. -/
def hasPyEntry (d : ServerDir) (ep : String) : Bool :=
  if ep = "app.py" then d.appPy
  else if ep = "main.py" then d.mainPy
  else if ep = "server.py" then d.serverPy
  else false

/-- How `start_server` fails, when it does. -/
inductive StartFail
  | notFound
  | noEntryPoint
  | unknownType
  | earlyExit
deriving Repr, DecidableEq

/-- Result of a `start_server` call: the boolean return value, the
command spawned (if any), the resulting registry file state, and the
failure kind (if any). -/
structure StartOutcome where
  success : Bool
  spawned : Option LaunchCmd
  file : RegFile
  fail : Option StartFail
deriving Repr, DecidableEq

/-- The spawn-then-settle tail of `start_server`: it saves the process
info FIRST (`save_process_info(server_name, process.pid)`), then sleeps
and polls; `earlyExit` says whether `process.poll()` found the child
already dead after the settle delay. -/
def startAfterSpawn (cmd : LaunchCmd) (name : String) (file : RegFile)
    (childPid : Nat) (now : String) (earlyExit : Bool) : StartOutcome :=
  let file1 := save_process_info file name childPid now
  if earlyExit then ⟨false, some cmd, file1, some .earlyExit⟩
  else ⟨true, some cmd, file1, none⟩

/-- `start_server(server_name)`.  `d` is what `os.path.exists` reports
for the server directory and its marker files, `childPid` the pid the
spawn would assign, `earlyExit` whether the child exits within the
settle window. -/
def start_server (d : ServerDir) (name : String) (file : RegFile)
    (childPid : Nat) (now : String) (earlyExit : Bool) : StartOutcome :=
  if !d.pathExists then ⟨false, none, file, some .notFound⟩
  else
    let is_node := d.packageJson
    let is_python := d.requirementsTxt
    if is_node then
      if d.buildIndexJs then
        startAfterSpawn .nodeBuild name file childPid now earlyExit
      else if d.distIndexJs then
        startAfterSpawn .nodeDist name file childPid now earlyExit
      else
        startAfterSpawn .npmStart name file childPid now earlyExit
    else if is_python then
      match python_entry_points.find? (fun ep => hasPyEntry d ep) with
      | some ep => startAfterSpawn (.pythonEntry ep) name file childPid now earlyExit
      | none => ⟨false, none, file, some .noEntryPoint⟩
    else ⟨false, none, file, some .unknownType⟩

/-- The Launcher's resolution policy as §4.1 of the spec words it
(first match wins): for the package-manager family the primary compiled
artifact, then the secondary, then the generic start command; for the
interpreted family the first existing conventional entry point; else no
resolution. -/
def resolutionOrderSpec (d : ServerDir) : Option LaunchCmd :=
  if d.packageJson && d.buildIndexJs then some .nodeBuild
  else if d.packageJson && d.distIndexJs then some .nodeDist
  else if d.packageJson then some .npmStart
  else if d.requirementsTxt && d.appPy then some (.pythonEntry "app.py")
  else if d.requirementsTxt && d.mainPy then some (.pythonEntry "main.py")
  else if d.requirementsTxt && d.serverPy then some (.pythonEntry "server.py")
  else none

/-! ## Helper lemmas -/

theorem Table.lookup_insert (t : Table) (n : String) (v : ProcInfo) :
    Table.lookup (Table.insert t n v) n = some v := by
  induction t with
  | nil => simp [Table.insert, Table.lookup]
  | cons p rest ih =>
    obtain ⟨k, w⟩ := p
    by_cases hk : k = n
    · simp [Table.insert, hk, Table.lookup]
    · simp [Table.insert, hk, Table.lookup, ih]

theorem Table.lookup_erase_self (t : Table) (n : String) :
    Table.lookup (Table.erase t n) n = none := by
  induction t with
  | nil => rfl
  | cons p rest ih =>
    obtain ⟨k, w⟩ := p
    by_cases hk : k = n
    · simpa [Table.erase, List.filter_cons, hk] using ih
    · simpa [Table.erase, List.filter_cons, hk, Table.lookup] using ih

theorem Table.lookup_erase_ne (t : Table) (n m : String) (h : m ≠ n) :
    Table.lookup (Table.erase t n) m = Table.lookup t m := by
  induction t with
  | nil => rfl
  | cons p rest ih =>
    obtain ⟨k, w⟩ := p
    by_cases hk : k = n
    · subst hk
      simp only [Table.erase, List.filter_cons, Table.lookup, decide_eq_true_eq] at ih ⊢
      simpa [Ne.symm h] using ih
    · by_cases hkm : k = m
      · subst hkm
        simp [Table.erase, List.filter_cons, hk, Table.lookup]
      · simpa [Table.erase, List.filter_cons, hk, Table.lookup, hkm] using ih

theorem stopLoop_of_all_alive (a : Nat → Bool) (fuel k : Nat)
    (h : ∀ j, k ≤ j → j < k + fuel → a j = true) :
    stopLoop a k fuel = none := by
  induction fuel generalizing k with
  | zero => rfl
  | succ fuel ih =>
    have hak : a k = true := h k le_rfl (by omega)
    simp only [stopLoop, hak, if_true]
    exact ih (k + 1) (fun j h1 h2 => h j (by omega) (by omega))

theorem stopLoop_of_first_dead (a : Nat → Bool) (fuel k m : Nat)
    (hkm : k ≤ m) (hm : m < k + fuel) (hdead : a m = false)
    (hfirst : ∀ j, k ≤ j → j < m → a j = true) :
    stopLoop a k fuel = some m := by
  induction fuel generalizing k with
  | zero => omega
  | succ fuel ih =>
    by_cases hk : k = m
    · subst hk
      simp [stopLoop, hdead]
    · have hak : a k = true := hfirst k le_rfl (by omega)
      simp only [stopLoop, hak, if_true]
      exact ih (k + 1) (by omega) (by omega)
        (fun j h1 h2 => hfirst j (by omega) h2)

theorem foldl_remove_good (ns : List String) (t : Table) :
    ns.foldl (fun f s => remove_process_info f s) (RegFile.good t) =
      .good (t.filter (fun p => !(decide (p.1 ∈ ns)))) := by
  induction ns generalizing t with
  | nil => simp
  | cons n ns ih =>
    simp only [List.foldl_cons]
    have hstep : remove_process_info (RegFile.good t) n =
        .good (t.filter (fun p => !(decide (p.1 = n)))) := rfl
    rw [hstep, ih, List.filter_filter]
    congr 1
    apply List.filter_congr
    intro p _
    cases h1 : decide (p.1 = n) <;> cases h2 : decide (p.1 ∈ ns) <;>
      simp_all [List.mem_cons]

theorem mem_staleNames (t : Table) (live : Nat → Bool) (x : String) :
    x ∈ staleNames t live ↔ ∃ p, p ∈ t ∧ live p.2.pid = false ∧ p.1 = x := by
  constructor
  · intro hx
    simp only [staleNames, List.mem_map, List.mem_filter] at hx
    obtain ⟨p, ⟨hp, hd⟩, hpx⟩ := hx
    exact ⟨p, hp, by simpa using hd, hpx⟩
  · intro ⟨p, hp, hd, hpx⟩
    simp only [staleNames, List.mem_map, List.mem_filter]
    exact ⟨p, ⟨hp, by simpa using hd⟩, hpx⟩

theorem clean_stale_good_eq (t : Table) (live : Nat → Bool)
    (h : (t.map Prod.fst).Nodup) :
    clean_stale (.good t) live =
      (.good (t.filter (fun p => live p.2.pid)), staleNames t live) := by
  by_cases ht : t = []
  · subst ht
    simp [clean_stale, staleNames]
  · simp only [clean_stale, ht, if_false]
    by_cases hs : staleNames t live = []
    · have hall : ∀ p ∈ t, live p.2.pid = true := by
        intro p hp
        by_contra hplive
        have hmem : p.1 ∈ staleNames t live :=
          (mem_staleNames t live p.1).2
            ⟨p, hp, by simpa using hplive, rfl⟩
        simp [hs] at hmem
      have hfix : t.filter (fun p => live p.2.pid) = t :=
        List.filter_eq_self.2 (fun p hp => hall p hp)
      simp [hs, hfix]
    · simp only [hs, if_false, foldl_remove_good]
      refine Prod.ext ?_ rfl
      simp only []
      congr 1
      apply List.filter_congr
      intro p hp
      by_cases hl : live p.2.pid = true
      · have hnot : ¬ p.1 ∈ staleNames t live := by
          intro hmem
          obtain ⟨q, hq, hqd, hqx⟩ := (mem_staleNames t live p.1).1 hmem
          have hqp : q = p := List.inj_on_of_nodup_map h hq hp hqx
          rw [hqp] at hqd
          simp [hl] at hqd
        simp [hnot, hl]
      · have hmem : p.1 ∈ staleNames t live :=
          (mem_staleNames t live p.1).2
            ⟨p, hp, by simpa using hl, rfl⟩
        simp [hmem, hl]

/-! ## Theorems -/

/-- C3: `clean_stale` removes exactly the stale entries on the first
run (the surviving table is the live-filtered one, the removed-list is
the stale names), and the result is a fixed point: a second run removes
nothing and reports an empty removed-list. -/
theorem clean_stale_idempotent (t : Table) (live : Nat → Bool)
    (h : (t.map Prod.fst).Nodup) :
    (clean_stale (.good t) live).1 = .good (t.filter (fun p => live p.2.pid)) ∧
    (clean_stale (.good t) live).2 = staleNames t live ∧
    clean_stale (clean_stale (.good t) live).1 live
      = ((clean_stale (.good t) live).1, []) := by
  have hrun1 := clean_stale_good_eq t live h
  refine ⟨by rw [hrun1], by rw [hrun1], ?_⟩
  rw [hrun1]
  by_cases ht1 : t.filter (fun p => live p.2.pid) = []
  · simp [clean_stale, ht1]
  · have hstale1 : staleNames (t.filter (fun p => live p.2.pid)) live = [] := by
      have : (t.filter (fun p => live p.2.pid)).filter
          (fun p => !(live p.2.pid)) = [] := by
        rw [List.filter_filter]
        apply List.filter_eq_nil_iff.2
        intro p _
        cases hl : live p.2.pid <;> simp [hl]
      simp [staleNames, this]
    simp [clean_stale, ht1, hstale1]

/-- Witness for C3 at a concrete two-entry registry (pid 1 dead,
pid 2 alive). -/
theorem clean_stale_idempotent_witness :
    (clean_stale (.good [("a", ⟨1, "x"⟩), ("b", ⟨2, "y"⟩)])
        (fun pid => decide (pid = 2))).1 =
      .good ([("a", ⟨1, "x"⟩), ("b", ⟨2, "y"⟩)].filter
        (fun p => (fun pid => decide (pid = 2)) p.2.pid)) ∧
    (clean_stale (.good [("a", ⟨1, "x"⟩), ("b", ⟨2, "y"⟩)])
        (fun pid => decide (pid = 2))).2 =
      staleNames [("a", ⟨1, "x"⟩), ("b", ⟨2, "y"⟩)] (fun pid => decide (pid = 2)) ∧
    clean_stale (clean_stale (.good [("a", ⟨1, "x"⟩), ("b", ⟨2, "y"⟩)])
        (fun pid => decide (pid = 2))).1 (fun pid => decide (pid = 2)) =
      ((clean_stale (.good [("a", ⟨1, "x"⟩), ("b", ⟨2, "y"⟩)])
        (fun pid => decide (pid = 2))).1, []) :=
  clean_stale_idempotent [("a", ⟨1, "x"⟩), ("b", ⟨2, "y"⟩)]
    (fun pid => decide (pid = 2)) (by decide)

/-- C2: with a Registry entry for the name and a pid alive at the
initial SIGTERM, `stop_server` reports success and removes the entry;
if some poll among the five (one per second) is the first to find the
pid dead, death is observed at that poll and no SIGKILL is sent; if the
pid is alive at all five polls, SIGKILL is sent.  The conclusions do not
constrain liveness after the fifth poll (index ≥ 6): success and removal
are reported without re-verifying that the process died. -/
theorem stop_alive_escalation (t : Table) (name : String) (info : ProcInfo)
    (aliveAt : Nat → Bool) (obs : Option Nat)
    (hl : Table.lookup t name = some info) (h0 : aliveAt 0 = true)
    (hobs : match obs with
      | some k => 1 ≤ k ∧ k ≤ 5 ∧ aliveAt k = false ∧
          ∀ j, j < k → 1 ≤ j → aliveAt j = true
      | none => ∀ k, k ≤ 5 → 1 ≤ k → aliveAt k = true) :
    stop_server (.good t) name aliveAt =
      ⟨true, .good (Table.erase t name), true, obs, obs.isNone⟩ := by
  cases obs with
  | some k =>
    obtain ⟨hk1, hk5, hdead, hfirst⟩ := hobs
    have hloop : stopLoop aliveAt 1 5 = some k :=
      stopLoop_of_first_dead aliveAt 5 1 k hk1 (by omega) hdead
        (fun j h1 h2 => hfirst j h2 h1)
    simp [stop_server, hl, h0, hloop, remove_process_info]
  | none =>
    have hloop : stopLoop aliveAt 1 5 = none :=
      stopLoop_of_all_alive aliveAt 5 1
        (fun j h1 h2 => hobs j (by omega) h1)
    simp [stop_server, hl, h0, hloop, remove_process_info]

/-- Witness for C2: a pid alive at SIGTERM and the first two polls, dead
at the third poll. -/
theorem stop_alive_escalation_witness :
    stop_server (.good [("a", ⟨9, "x"⟩)]) "a" (fun k => decide (k < 3)) =
      ⟨true, .good (Table.erase [("a", ⟨9, "x"⟩)] "a"), true, some 3,
        (some 3 : Option Nat).isNone⟩ :=
  stop_alive_escalation [("a", ⟨9, "x"⟩)] "a" ⟨9, "x"⟩
    (fun k => decide (k < 3)) (some 3) (by decide) (by decide) (by decide)

/-- C4: if the recorded pid does not correspond to any process at the
time of the initial SIGTERM (the signal raises `ProcessLookupError`),
`stop_server` removes the Registry entry for the name and reports
success. -/
theorem stop_gone_pid_converges (t : Table) (name : String) (info : ProcInfo)
    (aliveAt : Nat → Bool)
    (hl : Table.lookup t name = some info) (h0 : aliveAt 0 = false) :
    stop_server (.good t) name aliveAt =
      ⟨true, .good (Table.erase t name), false, none, false⟩ := by
  simp [stop_server, hl, h0, remove_process_info]

/-- Witness for C4 at a concrete registry and a dead pid. -/
theorem stop_gone_pid_converges_witness :
    stop_server (.good [("a", ⟨7, "2024-01-01 00:00:00"⟩)]) "a" (fun _ => false) =
      ⟨true, .good (Table.erase [("a", ⟨7, "2024-01-01 00:00:00"⟩)] "a"),
        false, none, false⟩ :=
  stop_gone_pid_converges [("a", ⟨7, "2024-01-01 00:00:00"⟩)] "a"
    ⟨7, "2024-01-01 00:00:00"⟩ (fun _ => false) (by decide) rfl

/-- C5: `stop_server` on a name with no Registry entry — whether the
registry file is missing, unparseable, or parsed without that key —
reports failure and leaves the file state exactly as it was. -/
theorem stop_unknown_name_no_mutation (t : Table) (name : String)
    (aliveAt : Nat → Bool) (h : Table.lookup t name = none) :
    stop_server (.good t) name aliveAt = ⟨false, .good t, false, none, false⟩ ∧
    stop_server .missing name aliveAt = ⟨false, .missing, false, none, false⟩ ∧
    stop_server .malformed name aliveAt = ⟨false, .malformed, false, none, false⟩ := by
  refine ⟨?_, rfl, rfl⟩
  simp [stop_server, h]

/-- Witness for C5 at a concrete registry without the requested name. -/
theorem stop_unknown_name_no_mutation_witness :
    stop_server (.good [("a", ⟨7, "x"⟩)]) "b" (fun _ => true) =
      ⟨false, .good [("a", ⟨7, "x"⟩)], false, none, false⟩ ∧
    stop_server .missing "b" (fun _ => true) =
      ⟨false, .missing, false, none, false⟩ ∧
    stop_server .malformed "b" (fun _ => true) =
      ⟨false, .malformed, false, none, false⟩ :=
  stop_unknown_name_no_mutation [("a", ⟨7, "x"⟩)] "b" (fun _ => true) (by decide)

/-- C7: `list_servers` and `list_running` are read-only on the Registry:
for every directory listing, registry file state and liveness oracle the
file state they return is exactly the one they were given — no entry is
added, removed, or rewritten. -/
theorem list_ops_read_only (allDirs : List String) (isDir : String → Bool)
    (file : RegFile) (live : Nat → Bool) :
    (list_servers allDirs isDir file live).2 = file ∧
    (list_running file live).2 = file := by
  constructor
  · rfl
  · cases file with
    | missing => rfl
    | malformed => rfl
    | good t =>
      by_cases h : t = []
      · simp [list_running, h]
      · simp [list_running, h]

/-- C8 counterexample: on an unparseable registry file `list_running`
prints "Error reading process records file", not the
"No running servers found" message the claim asserts. -/
theorem list_running_malformed_counterexample :
    (list_running .malformed (fun _ => false)).1 =
      ["Error reading process records file"] ∧
    ¬ ("No running servers found" ∈ (list_running .malformed (fun _ => false)).1) := by
  refine ⟨rfl, ?_⟩
  decide

/-- C8 (amended): on an unparseable registry file `list_running` returns
normally — reporting a read error ("Error reading process records
file") rather than raising — and performs no Registry mutation. -/
theorem list_running_malformed_reports_error (live : Nat → Bool) :
    (list_running .malformed live).1 = ["Error reading process records file"] ∧
    (list_running .malformed live).2 = .malformed :=
  ⟨rfl, rfl⟩

/-- C9: when the registry file is unparseable, `remove_process_info`
overwrites it with the empty table (erasing every entry, whatever name
was requested), whereas on a successful parse it removes only the
requested name's entry and preserves the lookup of every other name. -/
theorem remove_info_malformed_wipes (t : Table) (name other : String)
    (h : other ≠ name) :
    remove_process_info .malformed name = .good [] ∧
    Table.lookup ([] : Table) other = none ∧
    remove_process_info (.good t) name = .good (Table.erase t name) ∧
    Table.lookup (Table.erase t name) name = none ∧
    Table.lookup (Table.erase t name) other = Table.lookup t other :=
  ⟨rfl, rfl, rfl, Table.lookup_erase_self t name, Table.lookup_erase_ne t name other h⟩

/-- Witness for C9 at a concrete two-entry registry. -/
theorem remove_info_malformed_wipes_witness :
    remove_process_info .malformed "a" = .good [] ∧
    Table.lookup ([] : Table) "b" = none ∧
    remove_process_info (.good [("a", ⟨1, "x"⟩), ("b", ⟨2, "y"⟩)]) "a" =
      .good (Table.erase [("a", ⟨1, "x"⟩), ("b", ⟨2, "y"⟩)] "a") ∧
    Table.lookup (Table.erase [("a", ⟨1, "x"⟩), ("b", ⟨2, "y"⟩)] "a") "a" = none ∧
    Table.lookup (Table.erase [("a", ⟨1, "x"⟩), ("b", ⟨2, "y"⟩)] "a") "b" =
      Table.lookup [("a", ⟨1, "x"⟩), ("b", ⟨2, "y"⟩)] "b" :=
  remove_info_malformed_wipes [("a", ⟨1, "x"⟩), ("b", ⟨2, "y"⟩)] "a" "b" (by decide)

/-- C6: the Launcher's entry-point resolution is first-match-wins in
the fixed order of `resolutionOrderSpec` (build artifact, dist artifact,
generic npm start for the Node family; first of app.py / main.py /
server.py for the Python family), and when no rule resolves,
`start_server` reports failure and spawns no process, leaving the file
untouched. -/
theorem launcher_resolution_order (d : ServerDir) (name : String)
    (file : RegFile) (childPid : Nat) (now : String) (earlyExit : Bool)
    (h : d.pathExists = true) :
    (start_server d name file childPid now earlyExit).spawned =
      resolutionOrderSpec d ∧
    (resolutionOrderSpec d = none →
      (start_server d name file childPid now earlyExit).success = false ∧
      (start_server d name file childPid now earlyExit).file = file) := by
  obtain ⟨pe, pj, rq, bi, di, ap, mp, sp⟩ := d
  subst h
  cases earlyExit <;> cases pj <;> cases rq <;> cases bi <;> cases di <;>
    cases ap <;> cases mp <;> cases sp <;>
    simp [start_server, resolutionOrderSpec, startAfterSpawn,
      python_entry_points, hasPyEntry, List.find?]

/-- Witness for C6: a Python-family directory whose only entry point is
main.py. -/
theorem launcher_resolution_order_witness :
    (start_server ⟨true, false, true, false, false, false, true, false⟩ "srv"
        (.good []) 42 "T" false).spawned =
      resolutionOrderSpec ⟨true, false, true, false, false, false, true, false⟩ ∧
    (resolutionOrderSpec ⟨true, false, true, false, false, false, true, false⟩ = none →
      (start_server ⟨true, false, true, false, false, false, true, false⟩ "srv"
        (.good []) 42 "T" false).success = false ∧
      (start_server ⟨true, false, true, false, false, false, true, false⟩ "srv"
        (.good []) 42 "T" false).file = .good []) :=
  launcher_resolution_order ⟨true, false, true, false, false, false, true, false⟩
    "srv" (.good []) 42 "T" false rfl

/-- C10: runtime-kind detection gives the package-manager family strict
precedence: when both package.json and requirements.txt exist,
`start_server` launches a Node command (build, dist, or npm start —
npm start even when no compiled artifact exists), never a Python entry
point. -/
theorem node_marker_precedence (d : ServerDir) (name : String)
    (file : RegFile) (childPid : Nat) (now : String) (earlyExit : Bool)
    (h : d.pathExists = true) (hn : d.packageJson = true)
    (hp : d.requirementsTxt = true) :
    (start_server d name file childPid now earlyExit).spawned =
      some (if d.buildIndexJs then .nodeBuild
            else if d.distIndexJs then .nodeDist else .npmStart) := by
  obtain ⟨pe, pj, rq, bi, di, ap, mp, sp⟩ := d
  subst h
  subst hn
  subst hp
  cases earlyExit <;> cases bi <;> cases di <;>
    simp [start_server, startAfterSpawn]

/-- Witness for C10: both marker files present, no compiled artifact,
all Python entry points present — npm start is launched anyway. -/
theorem node_marker_precedence_witness :
    (start_server ⟨true, true, true, false, false, true, true, true⟩ "srv"
        (.good []) 42 "T" false).spawned =
      some (if (⟨true, true, true, false, false, true, true, true⟩ :
          ServerDir).buildIndexJs then .nodeBuild
        else if (⟨true, true, true, false, false, true, true, true⟩ :
          ServerDir).distIndexJs then .nodeDist else .npmStart) :=
  node_marker_precedence ⟨true, true, true, false, false, true, true, true⟩
    "srv" (.good []) 42 "T" false rfl rfl rfl

/-- C1 counterexample: a Node server with a build artifact whose child
exits within the settle window — `start_server` reports failure, yet the
persisted registry is no longer the empty table it started from: the
entry for the server was recorded before the settle check and is not
rolled back. -/
theorem start_early_exit_no_mutation_counterexample :
    (start_server ⟨true, true, false, true, false, false, false, false⟩ "srv"
      (.good []) 42 "2024-01-01 00:00:00" true).success = false ∧
    (start_server ⟨true, true, false, true, false, false, false, false⟩ "srv"
      (.good []) 42 "2024-01-01 00:00:00" true).file ≠ .good [] := by
  refine ⟨rfl, ?_⟩
  decide

/-- C1 (amended): when `start_server` spawns a child that exits within
the settle window, it reports failure, but the Registry HAS been
mutated: `save_process_info` ran before the settle check, so the
persisted table is the pre-call table with the entry for the name
upserted (pid of the dead child), and that entry is not removed. -/
theorem start_early_exit_records_entry (d : ServerDir) (name : String)
    (file : RegFile) (childPid : Nat) (now : String)
    (h : d.pathExists = true)
    (hs : (start_server d name file childPid now true).spawned ≠ none) :
    (start_server d name file childPid now true).success = false ∧
    (start_server d name file childPid now true).fail = some .earlyExit ∧
    (start_server d name file childPid now true).file =
      save_process_info file name childPid now ∧
    Table.lookup (tableOf (start_server d name file childPid now true).file)
      name = some ⟨childPid, now⟩ := by
  obtain ⟨pe, pj, rq, bi, di, ap, mp, sp⟩ := d
  subst h
  cases pj <;> cases rq <;> cases bi <;> cases di <;> cases ap <;>
    cases mp <;> cases sp <;>
    simp_all [start_server, startAfterSpawn, python_entry_points, hasPyEntry,
      List.find?, save_process_info, tableOf, Table.lookup_insert]

/-- Witness for C1 (amended) at a concrete Node server over an empty
registry. -/
theorem start_early_exit_records_entry_witness :
    (start_server ⟨true, true, false, true, false, false, false, false⟩ "srv"
      (.good []) 42 "T" true).success = false ∧
    (start_server ⟨true, true, false, true, false, false, false, false⟩ "srv"
      (.good []) 42 "T" true).fail = some .earlyExit ∧
    (start_server ⟨true, true, false, true, false, false, false, false⟩ "srv"
      (.good []) 42 "T" true).file = save_process_info (.good []) "srv" 42 "T" ∧
    Table.lookup (tableOf (start_server
        ⟨true, true, false, true, false, false, false, false⟩ "srv"
        (.good []) 42 "T" true).file) "srv" = some ⟨42, "T"⟩ :=
  start_early_exit_records_entry
    ⟨true, true, false, true, false, false, false, false⟩ "srv" (.good [])
    42 "T" rfl (by decide)
